import Mathlib

/-!
# Citadel POW backend — shallow embedding and verification

This file embeds the parts of the Citadel_POW_BackEND repository that the
verified claims are about:

* the accumulated-sats ledger stored procedures `add_accumulated_sats` and
  `deduct_accumulated_sats` (migrations/009_algorithm_v3_refactor.sql),
  together with the partial unique index
  `idx_accumulated_sats_logs_session_unique`, modelled as pure transactional
  functions on an explicit database state (an SQL exception rolls the whole
  transaction back, so an erroring call returns the error and the caller keeps
  the unchanged state);
* the accumulated-sats HTTP route handlers (routes/accumulated-sats.ts):
  GET /user/:discordId, POST /add, POST /deduct;
* the QR-code HMAC check-in helpers `generateQRData` / `verifyQRData` and the
  organizer gate `hasOrganizerRole` (routes/meetups.ts), with HMAC-SHA256
  abstracted as a parameter function and JavaScript string splitting /
  trimming / parseInt modelled explicitly on character lists;
* the POST /api/meetups handler (user lookup, organizer gate, insert);
* the GET /api/rankings/by-category `type=time` aggregation
  (routes/rankings.ts);
* the POST /api/donations handler with its zod schema value constraints and
  the PATCH /api/donations/:donationId/status transition table
  (routes/donations.ts).

UUIDs are abstracted as natural numbers, SQL timestamps (`NOW()`) as a
natural-number clock passed to each state-changing operation, and ISO-8601
`created_at` strings (compared lexicographically in the code, which on such
strings coincides with chronological order) as natural numbers.
-/

/-! ## Database state for the accumulated-sats ledger -/

abbrev Uuid := Nat

/-- A row of the `users` table (the columns the modelled routes read). -/
structure UserRow where
  id : Uuid
  discord_id : String
deriving DecidableEq, Repr

/-- A row of the `user_accumulated_sats` table. -/
structure SatsRow where
  user_id : Uuid
  accumulated_sats : Int
  last_updated : Nat
deriving DecidableEq, Repr

/-- A row of the `accumulated_sats_logs` table. -/
structure SatsLog where
  user_id : Uuid
  amount_before : Int
  amount_after : Int
  change_amount : Int
  action : String
  session_id : Option Uuid
  donation_id : Option Uuid
  note : Option String
deriving DecidableEq, Repr

/-- The tables touched by the accumulated-sats routes. -/
structure SatsDb where
  users : List UserRow
  user_accumulated_sats : List SatsRow
  accumulated_sats_logs : List SatsLog
deriving DecidableEq, Repr

/-- Errors raised by the two stored procedures.  Each constructor corresponds
to one `RAISE EXCEPTION` site (or, for `uniqueViolation`, to the
`unique_violation` error raised by the partial unique index
`idx_accumulated_sats_logs_session_unique` at the log insert); the HTTP
handlers branch on the error message / SQLSTATE, which the constructors
represent. -/
inductive SatsError where
  | amountNotPositive : SatsError
  | uniqueViolation : SatsError
  | insufficient (current requested : Int) : SatsError
  | balanceMismatch (expected actual : Int) : SatsError
deriving DecidableEq, Repr

/-- The row returned by both stored procedures:
`(accumulated_sats, amount_before, amount_after)`. -/
structure RpcRow where
  accumulated_sats : Int
  amount_before : Int
  amount_after : Int
deriving DecidableEq, Repr

/-- Balance of `uid` as read by `SELECT accumulated_sats FROM
user_accumulated_sats WHERE user_id = p_user_id` (`none` = no row). -/
def SatsDb.balanceRow (db : SatsDb) (uid : Uuid) : Option SatsRow :=
  db.user_accumulated_sats.find? (fun r => r.user_id = uid)

/-- Does the partial unique index `idx_accumulated_sats_logs_session_unique`
(`UNIQUE (user_id, session_id) WHERE session_id IS NOT NULL AND action =
'add'`) already hold a conflicting row? -/
def SatsDb.hasAddLogFor (db : SatsDb) (uid : Uuid) (sid : Option Uuid) : Bool :=
  sid.isSome &&
    db.accumulated_sats_logs.any
      (fun l => l.user_id = uid && l.session_id = sid && l.action = "add")

/-- `add_accumulated_sats` (migrations/009_algorithm_v3_refactor.sql,
lines 93–146): validate the amount, read the balance row under lock,
insert/update it, insert an `'add'` log row (which the partial unique index
may reject), and return `(v_after, v_before, v_after)`.  An exception rolls
the transaction back, so the error constructor is returned and the state is
left to the caller unchanged. -/
def add_accumulated_sats (db : SatsDb) (now : Nat) (uid : Uuid) (amount : Int)
    (sid : Option Uuid) (note : Option String) :
    Except SatsError (SatsDb × RpcRow) :=
  if amount ≤ 0 then .error .amountNotPositive
  else
    match db.balanceRow uid with
    | none =>
        let vAfter := amount
        if db.hasAddLogFor uid sid then .error .uniqueViolation
        else
          .ok ({ db with
                  user_accumulated_sats :=
                    db.user_accumulated_sats ++ [⟨uid, vAfter, now⟩],
                  accumulated_sats_logs :=
                    db.accumulated_sats_logs ++
                      [⟨uid, 0, vAfter, amount, "add", sid, none, note⟩] },
               ⟨vAfter, 0, vAfter⟩)
    | some row =>
        let vBefore := row.accumulated_sats
        let vAfter := vBefore + amount
        if db.hasAddLogFor uid sid then .error .uniqueViolation
        else
          .ok ({ db with
                  user_accumulated_sats :=
                    db.user_accumulated_sats.map
                      (fun r => if r.user_id = uid then
                          { r with accumulated_sats := vAfter,
                                   last_updated := now }
                        else r),
                  accumulated_sats_logs :=
                    db.accumulated_sats_logs ++
                      [⟨uid, vBefore, vAfter, amount, "add", sid, none, note⟩] },
               ⟨vAfter, vBefore, vAfter⟩)

/-- `deduct_accumulated_sats` (migrations/009_algorithm_v3_refactor.sql,
lines 153–207): validate the amount, read the balance row under lock, raise
`Insufficient accumulated sats` when the row is absent or smaller than the
amount, raise `Balance mismatch` when an `expected_balance` is supplied and
differs from the stored balance, otherwise subtract, log a `'deduct'` row
and return `(v_after, v_before, v_after)`. -/
def deduct_accumulated_sats (db : SatsDb) (now : Nat) (uid : Uuid)
    (amount : Int) (did : Option Uuid) (note : Option String)
    (expected : Option Int) : Except SatsError (SatsDb × RpcRow) :=
  if amount ≤ 0 then .error .amountNotPositive
  else
    match db.balanceRow uid with
    | none => .error (.insufficient 0 amount)
    | some row =>
        let vBefore := row.accumulated_sats
        if vBefore < amount then .error (.insufficient vBefore amount)
        else
          match expected with
          | some e =>
              if vBefore ≠ e then .error (.balanceMismatch e vBefore)
              else
                let vAfter := vBefore - amount
                .ok ({ db with
                        user_accumulated_sats :=
                          db.user_accumulated_sats.map
                            (fun r => if r.user_id = uid then
                                { r with accumulated_sats := vAfter,
                                         last_updated := now }
                              else r),
                        accumulated_sats_logs :=
                          db.accumulated_sats_logs ++
                            [⟨uid, vBefore, vAfter, -amount, "deduct", none,
                              did, note⟩] },
                     ⟨vAfter, vBefore, vAfter⟩)
          | none =>
              let vAfter := vBefore - amount
              .ok ({ db with
                      user_accumulated_sats :=
                        db.user_accumulated_sats.map
                          (fun r => if r.user_id = uid then
                              { r with accumulated_sats := vAfter,
                                       last_updated := now }
                            else r),
                      accumulated_sats_logs :=
                        db.accumulated_sats_logs ++
                          [⟨uid, vBefore, vAfter, -amount, "deduct", none,
                            did, note⟩] },
                   ⟨vAfter, vBefore, vAfter⟩)

/-! ## HTTP handlers for the accumulated-sats routes -/

/-- An HTTP response as the accumulated-sats handlers build it: status code,
`success` flag, optional machine-readable `code`, optional error message and
an optional JSON data payload. -/
structure RouteResp (α : Type) where
  status : Nat
  success : Bool
  code : Option String
  errMsg : Option String
  body : Option α
deriving DecidableEq, Repr

/-- Payload of a successful POST /add or POST /deduct response. -/
structure SatsChange where
  accumulated_sats : Int
  amount_before : Int
  amount_after : Int
  change_amount : Int
deriving DecidableEq, Repr

/-- Payload of a successful GET /api/accumulated-sats/user/:discordId
response. -/
structure UserSatsData where
  accumulated_sats : Int
  last_updated : Option Nat
deriving DecidableEq, Repr

/-- First `users` row with the given `discord_id` (models
`.from('users').select('id').eq('discord_id', d).single()`). -/
def SatsDb.findUser (db : SatsDb) (discordId : String) : Option UserRow :=
  db.users.find? (fun u => u.discord_id = discordId)

/-- GET /api/accumulated-sats/user/:discordId (routes/accumulated-sats.ts,
lines 12–60): resolve the user, read the balance row; a missing row
(supabase error `PGRST116`) is reported as a successful balance of `0` with
`last_updated` null. -/
def getUserSats (db : SatsDb) (discordId : String) : RouteResp UserSatsData :=
  match db.findUser discordId with
  | none => ⟨404, false, none, some "User not found", none⟩
  | some user =>
      match db.balanceRow user.id with
      | none => ⟨200, true, none, none, some ⟨0, none⟩⟩
      | some row =>
          ⟨200, true, none, none,
           some ⟨row.accumulated_sats, some row.last_updated⟩⟩

/-- Body of POST /api/accumulated-sats/add after zod validation
(`addSchema`: `amount` is a positive integer, `session_id` a UUID when
present). -/
structure AddReq where
  discord_id : String
  amount : Int
  session_id : Option Uuid
  note : Option String
deriving DecidableEq, Repr

/-- Body of POST /api/accumulated-sats/deduct after zod validation
(`deductSchema`: `amount` positive, `expected_balance ≥ 0` when present). -/
structure DeductReq where
  discord_id : String
  amount : Int
  donation_id : Option Uuid
  note : Option String
  expected_balance : Option Int
deriving DecidableEq, Repr

/-- POST /api/accumulated-sats/add (routes/accumulated-sats.ts, lines
74–131): resolve the user, call the RPC; a unique violation (duplicate
session credit) becomes HTTP 409 `DUPLICATE_SESSION`, any other RPC error
HTTP 500, success HTTP 201. -/
def postAddSats (db : SatsDb) (now : Nat) (req : AddReq) :
    RouteResp SatsChange × SatsDb :=
  match db.findUser req.discord_id with
  | none => (⟨404, false, none, some "User not found", none⟩, db)
  | some user =>
      match add_accumulated_sats db now user.id req.amount req.session_id
          req.note with
      | .error .uniqueViolation =>
          (⟨409, false, some "DUPLICATE_SESSION",
            some "Already accumulated for this session", none⟩, db)
      | .error _ =>
          (⟨500, false, none, some "RPC error", none⟩, db)
      | .ok (db', row) =>
          (⟨201, true, none, none,
            some ⟨row.accumulated_sats, row.amount_before, row.amount_after,
                  req.amount⟩⟩, db')

/-- POST /api/accumulated-sats/deduct (routes/accumulated-sats.ts, lines
146–209): resolve the user, call the RPC; an `Insufficient accumulated
sats` error becomes HTTP 400 `INSUFFICIENT_BALANCE`, a `Balance mismatch`
error HTTP 409 `BALANCE_MISMATCH`, any other RPC error HTTP 500, success
HTTP 200. -/
def postDeductSats (db : SatsDb) (now : Nat) (req : DeductReq) :
    RouteResp SatsChange × SatsDb :=
  match db.findUser req.discord_id with
  | none => (⟨404, false, none, some "User not found", none⟩, db)
  | some user =>
      match deduct_accumulated_sats db now user.id req.amount req.donation_id
          req.note req.expected_balance with
      | .error (.insufficient _ _) =>
          (⟨400, false, some "INSUFFICIENT_BALANCE",
            some "Insufficient accumulated sats", none⟩, db)
      | .error (.balanceMismatch _ _) =>
          (⟨409, false, some "BALANCE_MISMATCH",
            some "Balance mismatch", none⟩, db)
      | .error _ =>
          (⟨500, false, none, some "RPC error", none⟩, db)
      | .ok (db', row) =>
          (⟨200, true, none, none,
            some ⟨row.accumulated_sats, row.amount_before, row.amount_after,
                  -req.amount⟩⟩, db')

/-! ## Operation sequences on the ledger -/

/-- One call of either stored procedure, with its arguments. -/
inductive LedgerOp where
  | add (now : Nat) (uid : Uuid) (amount : Int) (sid : Option Uuid)
      (note : Option String) : LedgerOp
  | deduct (now : Nat) (uid : Uuid) (amount : Int) (did : Option Uuid)
      (note : Option String) (expected : Option Int) : LedgerOp
deriving DecidableEq, Repr

/-- Effect of one stored-procedure call on the database: a raising call
rolls back and leaves the state unchanged. -/
def applyOp (db : SatsDb) : LedgerOp → SatsDb
  | .add now uid amount sid note =>
      match add_accumulated_sats db now uid amount sid note with
      | .ok (db', _) => db'
      | .error _ => db
  | .deduct now uid amount did note expected =>
      match deduct_accumulated_sats db now uid amount did note expected with
      | .ok (db', _) => db'
      | .error _ => db

/-- Effect of a sequence of stored-procedure calls. -/
def applyOps (db : SatsDb) (ops : List LedgerOp) : SatsDb :=
  ops.foldl applyOp db

/-- Every `user_accumulated_sats` balance is non-negative. -/
def nonnegBalances (db : SatsDb) : Prop :=
  ∀ r ∈ db.user_accumulated_sats, 0 ≤ r.accumulated_sats

/-! ## JavaScript string primitives

The route code uses `String.prototype.split`, `String.prototype.trim`,
`String.prototype.slice` and `parseInt`.  They are modelled explicitly on
character lists so that every theorem about them is about a concrete
executable function. -/

/-- `s.split(sep)` for a one-character separator, on character lists:
`splitOnCharFn ':' "a:b".data = ["a".data, "b".data]`, with empty segments
kept exactly as in JavaScript. -/
def splitOnCharFn (sep : Char) : List Char → List (List Char)
  | [] => [[]]
  | c :: cs =>
      if c = sep then [] :: splitOnCharFn sep cs
      else
        match splitOnCharFn sep cs with
        | [] => [[c]]
        | p :: ps => (c :: p) :: ps

/-- `s.split(sep)` on strings. -/
def strSplit (s : String) (sep : Char) : List String :=
  (splitOnCharFn sep s.data).map List.asString

/-- The whitespace characters `String.prototype.trim` strips (the ones that
can occur in an environment-variable ID list). -/
def isJsSpace (c : Char) : Bool :=
  c = ' ' || c = '\t' || c = '\n' || c = '\r'

/-- `s.trim()` on character lists. -/
def trimChars (cs : List Char) : List Char :=
  ((cs.dropWhile isJsSpace).reverse.dropWhile isJsSpace).reverse

/-- Is `c` a decimal digit? -/
def isDigitChar (c : Char) : Bool :=
  decide ('0' ≤ c) && decide (c ≤ '9')

/-- Value of the longest digit prefix, accumulator style — the digits
`parseInt` consumes. -/
def parseLeading : List Char → Nat → Nat
  | [], acc => acc
  | c :: cs, acc =>
      if isDigitChar c then parseLeading cs (acc * 10 + (c.toNat - 48))
      else acc

/-- `parseInt(s)` restricted to the non-negative inputs the QR protocol
produces: `none` models `NaN` (first character not a digit or empty
string), otherwise the value of the longest digit prefix. -/
def jsParseInt (s : String) : Option Nat :=
  match s.data with
  | [] => none
  | c :: _ => if isDigitChar c then some (parseLeading s.data 0) else none

/-- Decimal digits of `n`, most significant first, with explicit fuel
(`natCharsAux (n+1) n` always has enough fuel).  Models JavaScript number →
string conversion for the integers the QR code carries. -/
def natCharsAux : Nat → Nat → List Char
  | 0, _ => []
  | fuel + 1, n =>
      if n < 10 then [Nat.digitChar n]
      else natCharsAux fuel (n / 10) ++ [Nat.digitChar (n % 10)]

/-- Decimal string of `n` (template-literal interpolation of a timestamp). -/
def natStr (n : Nat) : String :=
  (natCharsAux (n + 1) n).asString

/-! ## QR-code HMAC check-in protocol (routes/meetups.ts)

`generateHMAC` computes HMAC-SHA256 and hex-encodes it; the hash itself is
abstracted as a parameter `hmac : String → String → String` (message, secret
key ↦ hex digest) shared by generation and verification. -/

/-- Result of `verifyQRData`. -/
structure QRVerify where
  valid : Bool
  meetupId : Option String
  error : Option String
deriving DecidableEq, Repr

/-- `generateQRData` (routes/meetups.ts, lines 39–51): at clock second
`timestamp`, build `meetup:{meetupId}:{timestamp}:{checksum}` where the
checksum is the first 8 hex digits of `hmac(meetupId:timestamp, secretKey)`,
and return it with the expiry time `timestamp + 3600` seconds. -/
def generateQRData (hmac : String → String → String) (meetupId : String)
    (timestamp : Nat) (secretKey : String) : String × Nat :=
  let message := meetupId ++ ":" ++ natStr timestamp
  let fullChecksum := hmac message secretKey
  let checksum := (fullChecksum.data.take 8).asString
  ("meetup:" ++ meetupId ++ ":" ++ natStr timestamp ++ ":" ++ checksum,
   timestamp + 3600)

/-- `verifyQRData` (routes/meetups.ts, lines 56–82) at clock second `now`:
split on `':'` and demand exactly four parts starting with `"meetup"`;
reject a timestamp more than 3600 seconds old (a `NaN` timestamp skips this
check, as every JavaScript comparison with `NaN` is false, and then
interpolates as the string `"NaN"`); recompute the checksum over
`meetupId:timestamp` and compare with the provided one. -/
def verifyQRData (hmac : String → String → String) (qrData : String)
    (secretKey : String) (now : Nat) : QRVerify :=
  match strSplit qrData ':' with
  | [p0, meetupId, timestampStr, providedChecksum] =>
      if p0 = "meetup" then
        let ts? := jsParseInt timestampStr
        let expired :=
          match ts? with
          | some ts => decide (now - ts > 3600)
          | none => false
        if expired then ⟨false, none, some "QR code expired"⟩
        else
          let tsRepr :=
            match ts? with
            | some ts => natStr ts
            | none => "NaN"
          let message := meetupId ++ ":" ++ tsRepr
          let expectedChecksum := ((hmac message secretKey).data.take 8).asString
          if expectedChecksum = providedChecksum then
            ⟨true, some meetupId, none⟩
          else ⟨false, none, some "Invalid QR checksum"⟩
      else ⟨false, none, some "Invalid QR format"⟩
  | _ => ⟨false, none, some "Invalid QR format"⟩

/-! ## Organizer gate and POST /api/meetups -/

/-- The configured organizer list: `ORGANIZER_DISCORD_IDS` split on `','`,
trimmed, empty entries dropped (routes/meetups.ts, lines 88–89). -/
def organizerIdList (allowedIds : String) : List String :=
  ((splitOnCharFn ',' allowedIds.data).map
      (fun cs => (trimChars cs).asString)).filter
    (fun id => id.length > 0)

/-- `hasOrganizerRole` (routes/meetups.ts, lines 87–98): when the list is
empty (unset variable included, via `|| ''`) every user is allowed
(development mode), otherwise exactly the listed IDs are. -/
def hasOrganizerRole (discordId : String)
    (organizerDiscordIds : Option String) : Bool :=
  let idList := organizerIdList (organizerDiscordIds.getD "")
  if idList.length = 0 then true
  else decide (discordId ∈ idList)

/-- A row of `group_meetups` (the columns POST /api/meetups writes). -/
structure MeetupRow where
  organizer_id : Uuid
  title : String
  description : Option String
  image_url : Option String
  donation_mode : String
  scheduled_at : String
  duration_minutes : Int
  target_donation_amount : Int
  status : String
deriving DecidableEq, Repr

/-- `users` and `group_meetups`, the tables POST /api/meetups touches. -/
structure MeetupDb where
  users : List UserRow
  group_meetups : List MeetupRow
deriving DecidableEq, Repr

/-- Body of POST /api/meetups after zod validation (`createMeetupSchema`;
`donation_mode` already carries its default). -/
structure CreateMeetupReq where
  discord_id : String
  title : String
  description : Option String
  image_url : Option String
  donation_mode : String
  scheduled_at : String
  duration_minutes : Int
  target_donation_amount : Int
deriving DecidableEq, Repr

/-- POST /api/meetups (routes/meetups.ts, lines 135–192): resolve the user
(404), check `hasOrganizerRole` (403), insert the meetup with status
`'scheduled'` (201). -/
def postMeetup (db : MeetupDb) (organizerDiscordIds : Option String)
    (req : CreateMeetupReq) : RouteResp MeetupRow × MeetupDb :=
  match db.users.find? (fun u => u.discord_id = req.discord_id) with
  | none => (⟨404, false, none, some "User not found", none⟩, db)
  | some user =>
      if hasOrganizerRole req.discord_id organizerDiscordIds then
        let row : MeetupRow :=
          ⟨user.id, req.title, req.description, req.image_url,
           req.donation_mode, req.scheduled_at, req.duration_minutes,
           req.target_donation_amount, "scheduled"⟩
        (⟨201, true, none, none, some row⟩,
         { db with group_meetups := db.group_meetups ++ [row] })
      else
        (⟨403, false, none, some "Only Organizers can create meet-ups",
          none⟩, db)

/-! ## GET /api/rankings/by-category, `type=time` (routes/rankings.ts) -/

/-- The joined `users` record of a study session. -/
structure SessionUser where
  discord_id : String
  discord_username : String
  discord_avatar : Option String
deriving DecidableEq, Repr

/-- A `study_sessions` row as the `time` ranking reads it; `users` is the
joined user record (`none` when the join found no user). -/
structure StudySession where
  duration_seconds : Option Nat
  duration_minutes : Option Nat
  donation_mode : String
  created_at : Nat
  users : Option SessionUser
deriving DecidableEq, Repr

/-- `session.duration_seconds ?? (session.duration_minutes ?
session.duration_minutes * 60 : 0)` — nullish coalescing keeps an explicit
`0`, and a falsy `duration_minutes` (0 or absent) yields `0`. -/
def sessionSeconds (s : StudySession) : Nat :=
  match s.duration_seconds with
  | some v => v
  | none =>
      match s.duration_minutes with
      | some m => if m = 0 then 0 else m * 60
      | none => 0

/-- One value of the `userStats` map (insertion-ordered, like a JavaScript
`Map`). -/
structure UserStat where
  discord_id : String
  discord_username : String
  discord_avatar : Option String
  total_seconds : Nat
  session_count : Nat
  last_activity_at : Nat
deriving DecidableEq, Repr

/-- One `forEach` step of the aggregation (routes/rankings.ts, lines
160–184): skip sessions with no joined user; update the existing entry
(summing seconds, counting, keeping the larger `created_at`) or append a
fresh one. -/
def updateStats (stats : List UserStat) (s : StudySession) : List UserStat :=
  match s.users with
  | none => stats
  | some u =>
      if stats.any (fun st => st.discord_id = u.discord_id) then
        stats.map (fun st =>
          if st.discord_id = u.discord_id then
            { st with
              total_seconds := st.total_seconds + sessionSeconds s,
              session_count := st.session_count + 1,
              last_activity_at :=
                if s.created_at > st.last_activity_at then s.created_at
                else st.last_activity_at }
          else st)
      else
        stats ++ [⟨u.discord_id, u.discord_username, u.discord_avatar,
                   sessionSeconds s, 1, s.created_at⟩]

/-- The whole `userStats` aggregation over the fetched sessions. -/
def aggregateTime (sessions : List StudySession) : List UserStat :=
  sessions.foldl updateStats []

/-- The category filter `if (category && category !== 'all')
query.eq('donation_mode', category)`. -/
def timeFilter (sessions : List StudySession) (category : String) :
    List StudySession :=
  if category ≠ "" ∧ category ≠ "all" then
    sessions.filter (fun s => s.donation_mode = category)
  else sessions

/-- Comparator of `.sort((a, b) => b.total_seconds - a.total_seconds)`:
`a` may come before `b` exactly when `a.total_seconds ≥ b.total_seconds`. -/
def statGE (a b : UserStat) : Prop :=
  b.total_seconds ≤ a.total_seconds

instance : DecidableRel statGE :=
  fun a b => Nat.decLe b.total_seconds a.total_seconds

instance : IsTotal UserStat statGE :=
  ⟨fun a b => Nat.le_total b.total_seconds a.total_seconds⟩

instance : IsTrans UserStat statGE :=
  ⟨fun _ _ _ hab hbc => le_trans hbc hab⟩

/-- One entry of the returned `data` array (`total_minutes`, a
floating-point display value, is omitted). -/
structure RankingEntry where
  rank : Nat
  discord_id : String
  discord_username : String
  discord_avatar : Option String
  total_seconds : Nat
  session_count : Nat
  last_activity_at : Nat
deriving DecidableEq, Repr

/-- The `time` branch of GET /api/rankings/by-category (routes/rankings.ts,
lines 122–199): filter by category, aggregate per user, sort descending by
`total_seconds`, truncate to `limit`, and attach ranks `index + 1`. -/
def byCategoryTime (sessions : List StudySession) (category : String)
    (limit : Nat) : List RankingEntry :=
  let stats := aggregateTime (timeFilter sessions category)
  let sorted := List.insertionSort statGE stats
  (sorted.take limit).enum.map (fun p =>
    ⟨p.1 + 1, p.2.discord_id, p.2.discord_username, p.2.discord_avatar,
     p.2.total_seconds, p.2.session_count, p.2.last_activity_at⟩)

/-- Spec-side: does session `s` belong (via the join) to user `d`? -/
def sessionBelongsTo (d : String) (s : StudySession) : Bool :=
  match s.users with
  | some u => u.discord_id = d
  | none => false

/-- Spec-side: the sessions of user `d` (sessions with a missing joined
user belong to nobody). -/
def userSessions (d : String) (sessions : List StudySession) :
    List StudySession :=
  sessions.filter (sessionBelongsTo d)

/-- Spec-side (from the claim's words): total seconds of user `d`. -/
def specTotalSeconds (d : String) (sessions : List StudySession) : Nat :=
  ((userSessions d sessions).map sessionSeconds).sum

/-- Spec-side (from the claim's words): session count of user `d`. -/
def specSessionCount (d : String) (sessions : List StudySession) : Nat :=
  (userSessions d sessions).length

/-- Spec-side (from the claim's words): maximum `created_at` of user `d`'s
sessions (0 when there are none). -/
def specLastActivity (d : String) (sessions : List StudySession) : Nat :=
  ((userSessions d sessions).map (fun s => s.created_at)).foldr Nat.max 0

/-! ## Donations routes (routes/donations.ts) -/

/-- A `donations` row (the columns POST and PATCH /status touch). -/
structure DonationRow where
  id : Uuid
  user_id : Uuid
  amount : Int
  currency : String
  pow_fields : String
  donation_mode : String
  note : Option String
  pow_plan_text : Option String
  photo_url : Option String
  accumulated_sats : Option Int
  transaction_id : Option String
  status : String
  date : String
  session_id : Option String
  discord_shared : Bool
  paid_at : Option Nat
deriving DecidableEq, Repr

/-- `users` and `donations`, the tables the donations routes touch. -/
structure DonationDb where
  users : List UserRow
  donations : List DonationRow
deriving DecidableEq, Repr

/-- Is `c` a hexadecimal digit? -/
def isHexChar (c : Char) : Bool :=
  isDigitChar c || (decide ('a' ≤ c) && decide (c ≤ 'f')) ||
    (decide ('A' ≤ c) && decide (c ≤ 'F'))

/-- The 8-4-4-4-12 hexadecimal shape `z.string().uuid()` accepts. -/
def isUuidString (s : String) : Bool :=
  match splitOnCharFn '-' s.data with
  | [a, b, c, d, e] =>
      a.length = 8 && b.length = 4 && c.length = 4 && d.length = 4 &&
        e.length = 12 && (a ++ b ++ c ++ d ++ e).all isHexChar
  | _ => false

/-- The date regex of the schema, `^\d\x7b4\x7d-\d\x7b2\x7d-\d\x7b2\x7d$`
(four digits, dash, two digits, dash, two digits). -/
def isDateString (s : String) : Bool :=
  match s.data with
  | [y1, y2, y3, y4, h1, m1, m2, h2, d1, d2] =>
      isDigitChar y1 && isDigitChar y2 && isDigitChar y3 && isDigitChar y4 &&
        h1 = '-' && isDigitChar m1 && isDigitChar m2 && h2 = '-' &&
        isDigitChar d1 && isDigitChar d2
  | _ => false

/-- The five donation statuses of the schema enum. -/
def donationStatuses : List String :=
  ["pending", "paid", "completed", "failed", "cancelled"]

/-- `optCheck o p`: an absent optional field passes, a present one must
satisfy its constraint. -/
def optCheck {α : Type} (o : Option α) (p : α → Bool) : Bool :=
  match o with
  | none => true
  | some x => p x

/-- Body of POST /api/donations before validation.  Fields are typed but
not yet value-checked; `none` is an absent (or null) optional field.
`achievement_rate` is a float in the schema and is modelled as an integer. -/
structure DonationInput where
  discord_id : String
  amount : Int
  currency : Option String
  pow_fields : Option String
  donation_mode : Option String
  note : Option String
  pow_plan_text : Option String
  photo_url : Option String
  donation_scope : Option String
  plan_text : Option String
  accumulated_sats : Option Int
  transaction_id : Option String
  status : Option String
  date : Option String
  session_id : Option String
  message : Option String
  donationMode : Option String
  donationScope : Option String
  planText : Option String
  duration_minutes : Option Int
  duration_seconds : Option Int
  goal_minutes : Option Int
  achievement_rate : Option Int
  total_accumulated_sats : Option Int
  total_donated_sats : Option Int
deriving DecidableEq, Repr

/-- The value constraints of `createDonationSchema` (routes/donations.ts,
lines 237–275): `amount` a positive integer; optional numeric fields
non-negative; `achievement_rate` within 0–200; `status` in the enum;
`date` matching the date regex; `session_id` a UUID. -/
def checkCreateDonation (b : DonationInput) : Bool :=
  decide (0 < b.amount) &&
    optCheck b.accumulated_sats (fun n => decide (0 ≤ n)) &&
    optCheck b.status (fun s => donationStatuses.contains s) &&
    optCheck b.date isDateString &&
    optCheck b.session_id isUuidString &&
    optCheck b.duration_minutes (fun n => decide (0 ≤ n)) &&
    optCheck b.duration_seconds (fun n => decide (0 ≤ n)) &&
    optCheck b.goal_minutes (fun n => decide (0 ≤ n)) &&
    optCheck b.achievement_rate (fun n => decide (0 ≤ n) && decide (n ≤ 200)) &&
    optCheck b.total_accumulated_sats (fun n => decide (0 ≤ n)) &&
    optCheck b.total_donated_sats (fun n => decide (0 ≤ n))

/-- JavaScript `a || b` on strings: an empty string is falsy. -/
def jsOrStr (a b : String) : String :=
  if a = "" then b else a

/-- JavaScript `x || null` on an optional string: empty or absent becomes
null. -/
def nzStr (o : Option String) : Option String :=
  o.bind (fun s => if s = "" then none else some s)

/-- POST /api/donations (routes/donations.ts, lines 277–349): validate
(400), resolve the user (404), apply the backwards-compatibility fallback
chains, insert the row with `discord_shared := false` and `paid_at` set
exactly when the status is `'paid'` (201).  `newId` is the generated row id,
`today` the server date used when no `date` is supplied. -/
def postDonation (db : DonationDb) (now : Nat) (newId : Uuid) (today : String)
    (b : DonationInput) : RouteResp DonationRow × DonationDb :=
  if checkCreateDonation b = false then
    (⟨400, false, none, some "Invalid request body", none⟩, db)
  else
    match db.users.find? (fun u => u.discord_id = b.discord_id) with
    | none => (⟨404, false, none, some "User not found", none⟩, db)
    | some user =>
        let powFields :=
          jsOrStr (b.pow_fields.getD "pow-writing")
            (jsOrStr (b.donationMode.getD "") "pow-writing")
        let donationMode :=
          jsOrStr (b.donation_mode.getD "session")
            (jsOrStr (b.donationScope.getD "")
              (jsOrStr (b.donation_scope.getD "") "session"))
        let powPlanText :=
          (nzStr b.pow_plan_text).orElse (fun _ =>
            (nzStr b.planText).orElse (fun _ => nzStr b.plan_text))
        let note := (nzStr b.note).orElse (fun _ => nzStr b.message)
        let status := b.status.getD "pending"
        let row : DonationRow :=
          ⟨newId, user.id, b.amount, b.currency.getD "SAT", powFields,
           donationMode, note, powPlanText, b.photo_url, b.accumulated_sats,
           b.transaction_id, status, b.date.getD today, b.session_id, false,
           if status = "paid" then some now else none⟩
        (⟨201, true, none, none, some row⟩,
         { db with donations := db.donations ++ [row] })

/-- The `validTransitions` table of PATCH /api/donations/:donationId/status
(routes/donations.ts, lines 386–392); an unknown status has no allowed
transitions. -/
def validTransitions (s : String) : List String :=
  if s = "pending" then ["paid", "failed", "cancelled"]
  else if s = "paid" then ["completed", "failed", "cancelled"]
  else if s = "completed" then []
  else if s = "failed" then ["pending"]
  else if s = "cancelled" then []
  else []

/-- Body of PATCH /api/donations/:donationId/status after zod validation. -/
structure PatchStatusReq where
  status : String
  transaction_id : Option String
  discord_shared : Option Bool
deriving DecidableEq, Repr

/-- The per-row update PATCH /status performs once the transition is
allowed: set the status; on `pending → paid` set `paid_at` and, when a
truthy `transaction_id` was sent, the transaction id; on `paid → completed`
set `discord_shared` (defaulting to `true`). -/
def applyStatusUpdate (now : Nat) (cur : DonationRow) (req : PatchStatusReq)
    (d : DonationRow) : DonationRow :=
  let d1 := { d with status := req.status }
  let d2 :=
    if cur.status = "pending" ∧ req.status = "paid" then
      { d1 with
        paid_at := some now,
        transaction_id :=
          if (req.transaction_id.getD "") ≠ "" then req.transaction_id
          else d1.transaction_id }
    else d1
  if cur.status = "paid" ∧ req.status = "completed" then
    { d2 with discord_shared := req.discord_shared.getD true }
  else d2

/-- PATCH /api/donations/:donationId/status (routes/donations.ts, lines
363–446): fetch the donation (404), reject a transition not in
`validTransitions` with 400 `INVALID_TRANSITION`, otherwise update the row
and return it. -/
def patchDonationStatus (db : DonationDb) (now : Nat) (donationId : Uuid)
    (req : PatchStatusReq) : RouteResp DonationRow × DonationDb :=
  match db.donations.find? (fun d => d.id = donationId) with
  | none => (⟨404, false, none, some "Donation not found", none⟩, db)
  | some cur =>
      if req.status ∈ validTransitions cur.status then
        let db' :=
          { db with
            donations := db.donations.map (fun d =>
              if d.id = donationId then applyStatusUpdate now cur req d
              else d) }
        (⟨200, true, none, none, some (applyStatusUpdate now cur req cur)⟩,
         db')
      else
        (⟨400, false, some "INVALID_TRANSITION",
          some "Invalid status transition", none⟩, db)

/-! ## Theorems -/

/-- C10: for an existing user with no `user_accumulated_sats` row,
GET /api/accumulated-sats/user/:discordId returns HTTP 200 with
`success: true`, `accumulated_sats: 0` and `last_updated: null`, not a 404
or error response. -/
theorem c10_getUserSats_missing_row (db : SatsDb) (discordId : String)
    (user : UserRow) (hu : db.findUser discordId = some user)
    (hrow : db.balanceRow user.id = none) :
    getUserSats db discordId = ⟨200, true, none, none, some ⟨0, none⟩⟩ := by
  simp [getUserSats, hu, hrow]

/-- The concrete database of the C10 witness: `alice` exists, has no
balance row, and an unrelated user's balance row is present. -/
def c10Db : SatsDb :=
  ⟨[⟨1, "alice"⟩, ⟨2, "bob"⟩], [⟨2, 42, 5⟩], []⟩

/-- Witness for C10 at a concrete database. -/
theorem c10_witness :
    getUserSats c10Db "alice" = ⟨200, true, none, none, some ⟨0, none⟩⟩ :=
  c10_getUserSats_missing_row c10Db "alice" ⟨1, "alice"⟩ (by decide) (by decide)

/-- C1: for every user and positive deduction amount, if the user's
balance row is absent or strictly smaller than the amount,
`deduct_accumulated_sats` raises the `Insufficient accumulated sats` error,
POST /api/accumulated-sats/deduct answers HTTP 400 with code
`INSUFFICIENT_BALANCE`, and the database — the balance and the
`accumulated_sats_logs` table included — is unchanged. -/
theorem c1_deduct_insufficient_rejected (db : SatsDb) (now : Nat)
    (req : DeductReq) (user : UserRow)
    (hu : db.findUser req.discord_id = some user)
    (hpos : 0 < req.amount)
    (hins : db.balanceRow user.id = none ∨
      ∃ row, db.balanceRow user.id = some row ∧
        row.accumulated_sats < req.amount) :
    (∃ cur, deduct_accumulated_sats db now user.id req.amount req.donation_id
        req.note req.expected_balance = .error (.insufficient cur req.amount)) ∧
    (postDeductSats db now req).1.status = 400 ∧
    (postDeductSats db now req).1.code = some "INSUFFICIENT_BALANCE" ∧
    (postDeductSats db now req).2 = db := by
  have hnle : ¬ req.amount ≤ 0 := not_le.mpr hpos
  have hrpc : ∃ cur, deduct_accumulated_sats db now user.id req.amount
      req.donation_id req.note req.expected_balance =
        .error (.insufficient cur req.amount) := by
    rcases hins with h | ⟨row, h, hlt⟩
    · exact ⟨0, by simp [deduct_accumulated_sats, hnle, h]⟩
    · exact ⟨row.accumulated_sats,
        by simp [deduct_accumulated_sats, hnle, h, hlt]⟩
  obtain ⟨cur, hrpc⟩ := hrpc
  refine ⟨⟨cur, hrpc⟩, ?_, ?_, ?_⟩ <;> simp [postDeductSats, hu, hrpc]

/-- The concrete database of the C1 witness: `alice` holds 5 sats. -/
def c1Db : SatsDb := ⟨[⟨1, "alice"⟩], [⟨1, 5, 0⟩], []⟩

/-- The concrete request of the C1 witness: deduct 10 from a balance
of 5. -/
def c1Req : DeductReq := ⟨"alice", 10, none, none, none⟩

/-- Witness for C1 at a concrete database. -/
theorem c1_witness :
    (postDeductSats c1Db 7 c1Req).1.status = 400 ∧
    (postDeductSats c1Db 7 c1Req).1.code = some "INSUFFICIENT_BALANCE" ∧
    (postDeductSats c1Db 7 c1Req).2 = c1Db :=
  (c1_deduct_insufficient_rejected c1Db 7 c1Req ⟨1, "alice"⟩ (by decide)
    (by decide) (Or.inr ⟨⟨1, 5, 0⟩, by decide, by decide⟩)).2

/-- C4: for a deduct whose (positive) amount is covered by the stored
balance and that supplies an `expected_balance`: a mismatch makes
`deduct_accumulated_sats` raise the `Balance mismatch` error, the handler
answer HTTP 409 with code `BALANCE_MISMATCH` and the database stay
unchanged; a match makes the deduction succeed. -/
theorem c4_deduct_optimistic_lock (db : SatsDb) (now : Nat) (req : DeductReq)
    (user : UserRow) (row : SatsRow) (e : Int)
    (hu : db.findUser req.discord_id = some user)
    (hpos : 0 < req.amount)
    (hrow : db.balanceRow user.id = some row)
    (hcov : req.amount ≤ row.accumulated_sats)
    (hexp : req.expected_balance = some e) :
    (row.accumulated_sats ≠ e →
      deduct_accumulated_sats db now user.id req.amount req.donation_id
          req.note req.expected_balance =
        .error (.balanceMismatch e row.accumulated_sats) ∧
      (postDeductSats db now req).1.status = 409 ∧
      (postDeductSats db now req).1.code = some "BALANCE_MISMATCH" ∧
      (postDeductSats db now req).2 = db) ∧
    (row.accumulated_sats = e →
      ∃ db' r, deduct_accumulated_sats db now user.id req.amount
          req.donation_id req.note req.expected_balance = .ok (db', r) ∧
        r.amount_after = row.accumulated_sats - req.amount ∧
        (postDeductSats db now req).1.status = 200 ∧
        (postDeductSats db now req).1.success = true) := by
  have hnle : ¬ req.amount ≤ 0 := not_le.mpr hpos
  have hnlt : ¬ row.accumulated_sats < req.amount := not_lt.mpr hcov
  constructor
  · intro hne
    have hrpc : deduct_accumulated_sats db now user.id req.amount
        req.donation_id req.note req.expected_balance =
        .error (.balanceMismatch e row.accumulated_sats) := by
      simp [deduct_accumulated_sats, hnle, hrow, hnlt, hexp, hne]
    refine ⟨hrpc, ?_, ?_, ?_⟩ <;> simp [postDeductSats, hu, hrpc]
  · intro heq
    have hrpc : deduct_accumulated_sats db now user.id req.amount
        req.donation_id req.note req.expected_balance =
        .ok ({ db with
                user_accumulated_sats :=
                  db.user_accumulated_sats.map
                    (fun r => if r.user_id = user.id then
                        { r with
                          accumulated_sats :=
                            row.accumulated_sats - req.amount,
                          last_updated := now }
                      else r),
                accumulated_sats_logs :=
                  db.accumulated_sats_logs ++
                    [⟨user.id, row.accumulated_sats,
                      row.accumulated_sats - req.amount, -req.amount,
                      "deduct", none, req.donation_id, req.note⟩] },
             ⟨row.accumulated_sats - req.amount, row.accumulated_sats,
              row.accumulated_sats - req.amount⟩) := by
      simp [deduct_accumulated_sats, hnle, hrow, hnlt, hexp, heq]
      exact not_lt.mp (heq ▸ hnlt)
    exact ⟨_, _, hrpc, rfl, by simp [postDeductSats, hu, hrpc],
      by simp [postDeductSats, hu, hrpc]⟩

/-- The concrete database of the C4 witness: `alice` holds 5 sats. -/
def c4Db : SatsDb := ⟨[⟨1, "alice"⟩], [⟨1, 5, 0⟩], []⟩

/-- C4 witness request with a stale `expected_balance`. -/
def c4ReqStale : DeductReq := ⟨"alice", 3, none, none, some 4⟩

/-- C4 witness request with the matching `expected_balance`. -/
def c4ReqFresh : DeductReq := ⟨"alice", 3, none, none, some 5⟩

/-- Witness for C4 at a concrete database, exercising both the mismatch
and the match branch. -/
theorem c4_witness :
    ((postDeductSats c4Db 7 c4ReqStale).1.status = 409 ∧
      (postDeductSats c4Db 7 c4ReqStale).1.code = some "BALANCE_MISMATCH" ∧
      (postDeductSats c4Db 7 c4ReqStale).2 = c4Db) ∧
    ((postDeductSats c4Db 7 c4ReqFresh).1.status = 200 ∧
      (postDeductSats c4Db 7 c4ReqFresh).1.success = true) := by
  constructor
  · exact ((c4_deduct_optimistic_lock c4Db 7 c4ReqStale ⟨1, "alice"⟩
      ⟨1, 5, 0⟩ 4 (by decide) (by decide) (by decide) (by decide)
      (by decide)).1 (by decide)).2
  · obtain ⟨db', r, -, -, h1, h2⟩ :=
      (c4_deduct_optimistic_lock c4Db 7 c4ReqFresh ⟨1, "alice"⟩
        ⟨1, 5, 0⟩ 5 (by decide) (by decide) (by decide) (by decide)
        (by decide)).2 (by decide)
    exact ⟨h1, h2⟩

/-- C8: a POST /api/donations body that fails the schema validation is
answered with HTTP 400 `Invalid request body`; a validating body whose
`discord_id` matches no user is answered with HTTP 404 `User not found`;
in both cases no donations row is inserted. -/
theorem c8_postDonation_errors (db : DonationDb) (now : Nat) (newId : Uuid)
    (today : String) (b : DonationInput) :
    (checkCreateDonation b = false →
      postDonation db now newId today b =
        (⟨400, false, none, some "Invalid request body", none⟩, db)) ∧
    (checkCreateDonation b = true →
      db.users.find? (fun u => u.discord_id = b.discord_id) = none →
      postDonation db now newId today b =
        (⟨404, false, none, some "User not found", none⟩, db)) := by
  constructor
  · intro h
    simp [postDonation, h]
  · intro h hnone
    simp [postDonation, h, hnone]

/-- C8 witness body that fails validation (`amount` is not positive). -/
def c8BadBody : DonationInput :=
  ⟨"alice", 0, none, none, none, none, none, none, none, none, none, none,
   none, none, none, none, none, none, none, none, none, none, none, none,
   none⟩

/-- C8 witness body that validates (`amount` 21, everything else absent). -/
def c8GoodBody : DonationInput :=
  ⟨"alice", 21, none, none, none, none, none, none, none, none, none, none,
   none, none, none, none, none, none, none, none, none, none, none, none,
   none⟩

/-- The concrete database of the C8 witness: no user named `alice`. -/
def c8Db : DonationDb := ⟨[⟨1, "bob"⟩], []⟩

/-- Witness for C8 at a concrete database, exercising the validation
failure and the unknown user. -/
theorem c8_witness :
    postDonation c8Db 0 9 "2026-02-03" c8BadBody =
      (⟨400, false, none, some "Invalid request body", none⟩, c8Db) ∧
    postDonation c8Db 0 9 "2026-02-03" c8GoodBody =
      (⟨404, false, none, some "User not found", none⟩, c8Db) :=
  ⟨(c8_postDonation_errors c8Db 0 9 "2026-02-03" c8BadBody).1 (by decide),
   (c8_postDonation_errors c8Db 0 9 "2026-02-03" c8GoodBody).2 (by decide)
     (by decide)⟩

/-- The status transitions the claim lists as the only ones PATCH
/api/donations/:donationId/status applies. -/
def allowedStatusPairs : List (String × String) :=
  [("pending", "paid"), ("pending", "failed"), ("pending", "cancelled"),
   ("paid", "completed"), ("paid", "failed"), ("paid", "cancelled"),
   ("failed", "pending")]

/-- C9: PATCH /api/donations/:donationId/status only ever applies the
transitions pending→paid/failed/cancelled, paid→completed/failed/cancelled
and failed→pending; on an existing donation any other requested transition
is answered with HTTP 400 `INVALID_TRANSITION` and leaves the row (indeed
the whole table) unchanged, so a donation in `completed` or `cancelled`
never leaves its state through this endpoint. -/
theorem c9_patch_status_transitions (db : DonationDb) (now : Nat)
    (donId : Uuid) (req : PatchStatusReq) (cur : DonationRow)
    (hfind : db.donations.find? (fun d => d.id = donId) = some cur) :
    (req.status ∈ validTransitions cur.status ↔
      (cur.status, req.status) ∈ allowedStatusPairs) ∧
    (req.status ∉ validTransitions cur.status →
      (patchDonationStatus db now donId req).1.status = 400 ∧
      (patchDonationStatus db now donId req).1.code =
        some "INVALID_TRANSITION" ∧
      (patchDonationStatus db now donId req).2 = db) ∧
    (cur.status = "completed" ∨ cur.status = "cancelled" →
      (patchDonationStatus db now donId req).1.status = 400 ∧
      (patchDonationStatus db now donId req).2 = db) := by
  have hreject : req.status ∉ validTransitions cur.status →
      (patchDonationStatus db now donId req).1.status = 400 ∧
      (patchDonationStatus db now donId req).1.code =
        some "INVALID_TRANSITION" ∧
      (patchDonationStatus db now donId req).2 = db := by
    intro h
    refine ⟨?_, ?_, ?_⟩ <;> simp [patchDonationStatus, hfind, h]
  refine ⟨?_, hreject, ?_⟩
  · unfold validTransitions allowedStatusPairs
    split_ifs with h1 h2 h3 h4 h5 <;> simp_all
  · intro hc
    have hempty : validTransitions cur.status = [] := by
      rcases hc with h | h <;> simp [validTransitions, h]
    have hnot : req.status ∉ validTransitions cur.status := by
      simp [hempty]
    exact ⟨(hreject hnot).1, (hreject hnot).2.2⟩

/-- The concrete donation row of the C9 witness: already `completed`. -/
def c9Row : DonationRow :=
  ⟨3, 1, 100, "SAT", "pow-writing", "session", none, none, none, none,
   none, "completed", "2026-02-03", none, true, some 9⟩

/-- The concrete database of the C9 witness. -/
def c9Db : DonationDb := ⟨[⟨1, "alice"⟩], [c9Row]⟩

/-- The C9 witness request: try to move the completed donation back to
`paid`. -/
def c9Req : PatchStatusReq := ⟨"paid", none, none⟩

/-- Witness for C9 at a concrete database. -/
theorem c9_witness :
    (patchDonationStatus c9Db 10 3 c9Req).1.status = 400 ∧
    (patchDonationStatus c9Db 10 3 c9Req).1.code =
      some "INVALID_TRANSITION" ∧
    (patchDonationStatus c9Db 10 3 c9Req).2 = c9Db :=
  (c9_patch_status_transitions c9Db 10 3 c9Req c9Row (by decide)).2.1
    (by decide)

/-- C6: a POST /api/meetups request from an existing user whom
`hasOrganizerRole` rejects — which happens exactly when the configured
organizer list is non-empty and does not contain the user — is answered
with HTTP 403 and inserts no `group_meetups` row. -/
theorem c6_meetup_organizer_gate (db : MeetupDb) (orgIds : Option String)
    (req : CreateMeetupReq) (user : UserRow)
    (hu : db.users.find? (fun u => u.discord_id = req.discord_id) = some user)
    (hrole : hasOrganizerRole req.discord_id orgIds = false) :
    (organizerIdList (orgIds.getD "") ≠ [] ∧
      req.discord_id ∉ organizerIdList (orgIds.getD "")) ∧
    (postMeetup db orgIds req).1.status = 403 ∧
    (postMeetup db orgIds req).2 = db := by
  refine ⟨?_, ?_, ?_⟩
  · by_cases hlen : (organizerIdList (orgIds.getD "")).length = 0
    · simp [hasOrganizerRole, hlen] at hrole
    · refine ⟨fun h => hlen (by simp [h]), fun hmem => ?_⟩
      simp [hasOrganizerRole, hlen, hmem] at hrole
  · simp [postMeetup, hu, hrole]
  · simp [postMeetup, hu, hrole]

/-- The concrete database of the C6 witness: `carol` exists but is not in
the organizer list. -/
def c6Db : MeetupDb := ⟨[⟨1, "carol"⟩], []⟩

/-- The C6 witness request. -/
def c6Req : CreateMeetupReq :=
  ⟨"carol", "Study night", none, none, "pow-writing",
   "2026-03-01T18:00:00Z", 60, 1000⟩

/-- Witness for C6 at a concrete database and organizer list. -/
theorem c6_witness :
    (postMeetup c6Db (some "alice, bob") c6Req).1.status = 403 ∧
    (postMeetup c6Db (some "alice, bob") c6Req).2 = c6Db :=
  (c6_meetup_organizer_gate c6Db (some "alice, bob") c6Req ⟨1, "carol"⟩
    (by decide) (by decide)).2

/-- A balance row returned by `balanceRow` is a row of the table. -/
theorem balanceRow_mem {db : SatsDb} {uid : Uuid} {row : SatsRow}
    (h : db.balanceRow uid = some row) : row ∈ db.user_accumulated_sats :=
  List.mem_of_find?_eq_some h

/-- Looking up `uid` after the in-place balance update of the stored
procedures: the found row is the updated one. -/
theorem find?_update_balances (l : List SatsRow) (uid : Uuid) (v : Int)
    (t : Nat) :
    (l.map (fun r => if r.user_id = uid then
        { r with accumulated_sats := v, last_updated := t } else r)).find?
      (fun r => r.user_id = uid) =
    (l.find? (fun r => r.user_id = uid)).map
      (fun r => { r with accumulated_sats := v, last_updated := t }) := by
  induction l with
  | nil => rfl
  | cons a l ih =>
      by_cases ha : a.user_id = uid
      · simp [List.find?_cons, ha]
      · simp [List.find?_cons, ha, ih]

/-- One stored-procedure call keeps all balances non-negative. -/
theorem applyOp_nonneg (db : SatsDb) (op : LedgerOp)
    (h : nonnegBalances db) : nonnegBalances (applyOp db op) := by
  cases op with
  | add now uid amount sid note =>
      by_cases hpos : amount ≤ 0
      · simpa [applyOp, add_accumulated_sats, hpos] using h
      · cases hb : db.balanceRow uid with
        | none =>
            by_cases hd : db.hasAddLogFor uid sid
            · simpa [applyOp, add_accumulated_sats, hpos, hb, hd] using h
            · intro r hr
              simp [applyOp, add_accumulated_sats, hpos, hb, hd] at hr
              rcases hr with hr | rfl
              · exact h r hr
              · simpa using le_of_lt (not_le.mp hpos)
        | some row =>
            by_cases hd : db.hasAddLogFor uid sid
            · simpa [applyOp, add_accumulated_sats, hpos, hb, hd] using h
            · intro r hr
              simp [applyOp, add_accumulated_sats, hpos, hb, hd] at hr
              obtain ⟨r₀, hr₀, hrr⟩ := hr
              by_cases huid : r₀.user_id = uid
              · rw [if_pos huid] at hrr
                subst hrr
                simpa using add_nonneg (h row (balanceRow_mem hb))
                  (le_of_lt (not_le.mp hpos))
              · rw [if_neg huid] at hrr
                subst hrr
                exact h r₀ hr₀
  | deduct now uid amount did note expected =>
      by_cases hpos : amount ≤ 0
      · simpa [applyOp, deduct_accumulated_sats, hpos] using h
      · cases hb : db.balanceRow uid with
        | none => simpa [applyOp, deduct_accumulated_sats, hpos, hb] using h
        | some row =>
            by_cases hlt : row.accumulated_sats < amount
            · simpa [applyOp, deduct_accumulated_sats, hpos, hb, hlt] using h
            · have hafter : 0 ≤ row.accumulated_sats - amount :=
                sub_nonneg.mpr (not_lt.mp hlt)
              cases expected with
              | none =>
                  intro r hr
                  simp [applyOp, deduct_accumulated_sats, hpos, hb, hlt] at hr
                  obtain ⟨r₀, hr₀, hrr⟩ := hr
                  by_cases huid : r₀.user_id = uid
                  · rw [if_pos huid] at hrr
                    subst hrr
                    simpa using hafter
                  · rw [if_neg huid] at hrr
                    subst hrr
                    exact h r₀ hr₀
              | some e =>
                  by_cases heq : row.accumulated_sats = e
                  · subst heq
                    intro r hr
                    simp [applyOp, deduct_accumulated_sats, hpos, hb,
                      hlt] at hr
                    obtain ⟨r₀, hr₀, hrr⟩ := hr
                    by_cases huid : r₀.user_id = uid
                    · rw [if_pos huid] at hrr
                      subst hrr
                      simpa using hafter
                    · rw [if_neg huid] at hrr
                      subst hrr
                      exact h r₀ hr₀
                  · simpa [applyOp, deduct_accumulated_sats, hpos, hb, hlt,
                      heq] using h

/-- A whole sequence of stored-procedure calls keeps all balances
non-negative. -/
theorem applyOps_nonneg (ops : List LedgerOp) (db : SatsDb)
    (h : nonnegBalances db) : nonnegBalances (applyOps db ops) := by
  induction ops generalizing db with
  | nil => simpa [applyOps] using h
  | cons op ops ih => exact ih (applyOp db op) (applyOp_nonneg db op h)

/-- C2: a successful `add_accumulated_sats` returns `amount_after =
amount_before + amount`, reading a missing balance row as 0 and
creating/updating the row to `amount_after`; a successful
`deduct_accumulated_sats` returns `amount_after = amount_before - amount`
with `amount_before` the stored balance; and every sequence of add and
deduct calls starting from a state with no balance rows keeps every
balance non-negative. -/
theorem c2_ledger_arithmetic_and_nonneg :
    (∀ db now uid amount sid note db' r,
      add_accumulated_sats db now uid amount sid note = .ok (db', r) →
        r.amount_before =
          ((db.balanceRow uid).map SatsRow.accumulated_sats).getD 0 ∧
        r.amount_after = r.amount_before + amount ∧
        ∃ row', db'.balanceRow uid = some row' ∧
          row'.accumulated_sats = r.amount_after) ∧
    (∀ db now uid amount did note expected db' r,
      deduct_accumulated_sats db now uid amount did note expected =
          .ok (db', r) →
        ∃ row, db.balanceRow uid = some row ∧
          r.amount_before = row.accumulated_sats ∧
          r.amount_after = r.amount_before - amount) ∧
    (∀ db : SatsDb, db.user_accumulated_sats = [] →
      ∀ ops, nonnegBalances (applyOps db ops)) := by
  refine ⟨?_, ?_, ?_⟩
  · intro db now uid amount sid note db' r hok
    by_cases hpos : amount ≤ 0
    · simp [add_accumulated_sats, hpos] at hok
    · cases hb : db.balanceRow uid with
      | none =>
          by_cases hd : db.hasAddLogFor uid sid
          · simp [add_accumulated_sats, hpos, hb, hd] at hok
          · simp [add_accumulated_sats, hpos, hb, hd] at hok
            obtain ⟨rfl, rfl⟩ := hok
            refine ⟨by simp [hb], by simp, ⟨uid, amount, now⟩, ?_, rfl⟩
            simp only [SatsDb.balanceRow] at hb ⊢
            rw [List.find?_append, hb]
            simp
      | some row =>
          by_cases hd : db.hasAddLogFor uid sid
          · simp [add_accumulated_sats, hpos, hb, hd] at hok
          · simp [add_accumulated_sats, hpos, hb, hd] at hok
            obtain ⟨rfl, rfl⟩ := hok
            refine ⟨by simp [hb], by simp,
              { row with accumulated_sats := row.accumulated_sats + amount,
                         last_updated := now }, ?_, rfl⟩
            simp only [SatsDb.balanceRow] at hb ⊢
            rw [find?_update_balances, hb]
            rfl
  · intro db now uid amount did note expected db' r hok
    by_cases hpos : amount ≤ 0
    · simp [deduct_accumulated_sats, hpos] at hok
    · cases hb : db.balanceRow uid with
      | none => simp [deduct_accumulated_sats, hpos, hb] at hok
      | some row =>
          by_cases hlt : row.accumulated_sats < amount
          · simp [deduct_accumulated_sats, hpos, hb, hlt] at hok
          · cases expected with
            | none =>
                simp [deduct_accumulated_sats, hpos, hb, hlt] at hok
                obtain ⟨rfl, rfl⟩ := hok
                exact ⟨row, rfl, rfl, rfl⟩
            | some e =>
                by_cases heq : row.accumulated_sats = e
                · subst heq
                  simp [deduct_accumulated_sats, hpos, hb, hlt] at hok
                  obtain ⟨rfl, rfl⟩ := hok
                  exact ⟨row, rfl, rfl, rfl⟩
                · simp [deduct_accumulated_sats, hpos, hb, hlt, heq] at hok
  · intro db hempty ops
    refine applyOps_nonneg ops db ?_
    intro r hr
    rw [hempty] at hr
    exact absurd hr (List.not_mem_nil r)

/-- Witness for C2: a concrete add-then-deduct run from the empty ledger
keeps balances non-negative. -/
theorem c2_witness :
    nonnegBalances (applyOps ⟨[⟨1, "alice"⟩], [], []⟩
      [.add 1 1 5 none none, .deduct 2 1 3 none none none]) :=
  c2_ledger_arithmetic_and_nonneg.2.2 ⟨[⟨1, "alice"⟩], [], []⟩ rfl
    [.add 1 1 5 none none, .deduct 2 1 3 none none none]

/-- Shape of a successful `add_accumulated_sats`: the `users` table is
untouched, every old log row survives, and a fresh `'add'` log row for
`(uid, sid)` is appended. -/
theorem add_ok_shape (db : SatsDb) (now : Nat) (uid : Uuid) (amount : Int)
    (sid : Option Uuid) (note : Option String) (db' : SatsDb) (r : RpcRow)
    (h : add_accumulated_sats db now uid amount sid note = .ok (db', r)) :
    db'.users = db.users ∧
    (∀ l ∈ db.accumulated_sats_logs, l ∈ db'.accumulated_sats_logs) ∧
    (⟨uid, r.amount_before, r.amount_after, amount, "add", sid, none,
      note⟩ : SatsLog) ∈ db'.accumulated_sats_logs := by
  by_cases hpos : amount ≤ 0
  · simp [add_accumulated_sats, hpos] at h
  · cases hb : db.balanceRow uid with
    | none =>
        by_cases hd : db.hasAddLogFor uid sid
        · simp [add_accumulated_sats, hpos, hb, hd] at h
        · simp [add_accumulated_sats, hpos, hb, hd] at h
          obtain ⟨rfl, rfl⟩ := h
          refine ⟨rfl, fun l hl => by simp [hl], by simp⟩
    | some row =>
        by_cases hd : db.hasAddLogFor uid sid
        · simp [add_accumulated_sats, hpos, hb, hd] at h
        · simp [add_accumulated_sats, hpos, hb, hd] at h
          obtain ⟨rfl, rfl⟩ := h
          refine ⟨rfl, fun l hl => by simp [hl], by simp⟩

/-- Shape of a successful `deduct_accumulated_sats`: the `users` table is
untouched and every old log row survives. -/
theorem deduct_ok_shape (db : SatsDb) (now : Nat) (uid : Uuid) (amount : Int)
    (did : Option Uuid) (note : Option String) (expected : Option Int)
    (db' : SatsDb) (r : RpcRow)
    (h : deduct_accumulated_sats db now uid amount did note expected =
      .ok (db', r)) :
    db'.users = db.users ∧
    (∀ l ∈ db.accumulated_sats_logs, l ∈ db'.accumulated_sats_logs) := by
  by_cases hpos : amount ≤ 0
  · simp [deduct_accumulated_sats, hpos] at h
  · cases hb : db.balanceRow uid with
    | none => simp [deduct_accumulated_sats, hpos, hb] at h
    | some row =>
        by_cases hlt : row.accumulated_sats < amount
        · simp [deduct_accumulated_sats, hpos, hb, hlt] at h
        · cases expected with
          | none =>
              simp [deduct_accumulated_sats, hpos, hb, hlt] at h
              obtain ⟨rfl, rfl⟩ := h
              exact ⟨rfl, fun l hl => by simp [hl]⟩
          | some e =>
              by_cases heq : row.accumulated_sats = e
              · subst heq
                simp [deduct_accumulated_sats, hpos, hb, hlt] at h
                obtain ⟨rfl, rfl⟩ := h
                exact ⟨rfl, fun l hl => by simp [hl]⟩
              · simp [deduct_accumulated_sats, hpos, hb, hlt, heq] at h

/-- One stored-procedure call never touches the `users` table. -/
theorem applyOp_users (db : SatsDb) (op : LedgerOp) :
    (applyOp db op).users = db.users := by
  cases op with
  | add now uid amount sid note =>
      cases hres : add_accumulated_sats db now uid amount sid note with
      | ok p =>
          obtain ⟨db', r⟩ := p
          simpa [applyOp, hres] using
            (add_ok_shape db now uid amount sid note db' r hres).1
      | error e => simp [applyOp, hres]
  | deduct now uid amount did note expected =>
      cases hres : deduct_accumulated_sats db now uid amount did note
          expected with
      | ok p =>
          obtain ⟨db', r⟩ := p
          simpa [applyOp, hres] using
            (deduct_ok_shape db now uid amount did note expected db' r
              hres).1
      | error e => simp [applyOp, hres]

/-- One stored-procedure call never removes a log row. -/
theorem applyOp_logs_mono (db : SatsDb) (op : LedgerOp) (l : SatsLog)
    (hl : l ∈ db.accumulated_sats_logs) :
    l ∈ (applyOp db op).accumulated_sats_logs := by
  cases op with
  | add now uid amount sid note =>
      cases hres : add_accumulated_sats db now uid amount sid note with
      | ok p =>
          obtain ⟨db', r⟩ := p
          simpa [applyOp, hres] using
            (add_ok_shape db now uid amount sid note db' r hres).2.1 l hl
      | error e => simpa [applyOp, hres] using hl
  | deduct now uid amount did note expected =>
      cases hres : deduct_accumulated_sats db now uid amount did note
          expected with
      | ok p =>
          obtain ⟨db', r⟩ := p
          simpa [applyOp, hres] using
            (deduct_ok_shape db now uid amount did note expected db' r
              hres).2 l hl
      | error e => simpa [applyOp, hres] using hl

/-- A sequence of stored-procedure calls never touches `users`. -/
theorem applyOps_users (ops : List LedgerOp) (db : SatsDb) :
    (applyOps db ops).users = db.users := by
  induction ops generalizing db with
  | nil => rfl
  | cons op ops ih => exact (ih (applyOp db op)).trans (applyOp_users db op)

/-- A sequence of stored-procedure calls never removes a log row. -/
theorem applyOps_logs_mono (ops : List LedgerOp) (db : SatsDb) (l : SatsLog)
    (hl : l ∈ db.accumulated_sats_logs) :
    l ∈ (applyOps db ops).accumulated_sats_logs := by
  induction ops generalizing db with
  | nil => exact hl
  | cons op ops ih => exact ih (applyOp db op) (applyOp_logs_mono db op l hl)

/-- C3: for a user and a non-null session id with no prior `'add'` credit,
a first POST /api/accumulated-sats/add succeeds with HTTP 201; and after
any further sequence of ledger operations, a second add for the same user
and session id is rejected by the partial unique index, answered with
HTTP 409 `DUPLICATE_SESSION`, and leaves the database — the balance
included — exactly as it was before the duplicate call. -/
theorem c3_session_dedup (db : SatsDb) (now : Nat) (req : AddReq)
    (user : UserRow) (s : Uuid)
    (hu : db.findUser req.discord_id = some user)
    (hsid : req.session_id = some s)
    (hpos : 0 < req.amount)
    (hfresh : ∀ l ∈ db.accumulated_sats_logs,
      ¬(l.user_id = user.id ∧ l.session_id = some s ∧ l.action = "add")) :
    (postAddSats db now req).1.status = 201 ∧
    (∀ (ops : List LedgerOp) (req2 : AddReq) (now2 : Nat),
      req2.discord_id = req.discord_id → req2.session_id = some s →
      0 < req2.amount →
      (postAddSats (applyOps (postAddSats db now req).2 ops) now2
          req2).1.status = 409 ∧
      (postAddSats (applyOps (postAddSats db now req).2 ops) now2
          req2).1.code = some "DUPLICATE_SESSION" ∧
      (postAddSats (applyOps (postAddSats db now req).2 ops) now2 req2).2 =
        applyOps (postAddSats db now req).2 ops) := by
  have hnle : ¬ req.amount ≤ 0 := not_le.mpr hpos
  have hdup : db.hasAddLogFor user.id req.session_id = false := by
    rw [hsid]
    simp only [SatsDb.hasAddLogFor, Option.isSome_some, Bool.true_and]
    rw [List.any_eq_false]
    intro l hl
    simp only [Bool.and_eq_true, decide_eq_true_eq]
    rintro ⟨⟨h1, h2⟩, h3⟩
    exact hfresh l hl ⟨h1, h2, h3⟩
  obtain ⟨db1, r1, hok⟩ : ∃ db1 r1,
      add_accumulated_sats db now user.id req.amount req.session_id
        req.note = .ok (db1, r1) := by
    cases hb : db.balanceRow user.id with
    | none =>
        exact ⟨{ db with
                  user_accumulated_sats :=
                    db.user_accumulated_sats ++
                      [⟨user.id, req.amount, now⟩],
                  accumulated_sats_logs :=
                    db.accumulated_sats_logs ++
                      [⟨user.id, 0, req.amount, req.amount, "add",
                        req.session_id, none, req.note⟩] },
               ⟨req.amount, 0, req.amount⟩,
               by simp [add_accumulated_sats, hnle, hb, hdup]⟩
    | some row =>
        exact ⟨{ db with
                  user_accumulated_sats :=
                    db.user_accumulated_sats.map
                      (fun r => if r.user_id = user.id then
                          { r with
                            accumulated_sats :=
                              row.accumulated_sats + req.amount,
                            last_updated := now }
                        else r),
                  accumulated_sats_logs :=
                    db.accumulated_sats_logs ++
                      [⟨user.id, row.accumulated_sats,
                        row.accumulated_sats + req.amount, req.amount,
                        "add", req.session_id, none, req.note⟩] },
               ⟨row.accumulated_sats + req.amount, row.accumulated_sats,
                row.accumulated_sats + req.amount⟩,
               by simp [add_accumulated_sats, hnle, hb, hdup]⟩
  have h2 : (postAddSats db now req).2 = db1 := by
    simp [postAddSats, hu, hok]
  refine ⟨by simp [postAddSats, hu, hok], ?_⟩
  intro ops req2 now2 hd1 hd2 hp2
  rw [h2]
  have hshape := add_ok_shape db now user.id req.amount req.session_id
    req.note db1 r1 hok
  have husers : (applyOps db1 ops).users = db.users :=
    (applyOps_users ops db1).trans hshape.1
  have hlogb : (⟨user.id, r1.amount_before, r1.amount_after, req.amount,
      "add", req.session_id, none, req.note⟩ : SatsLog) ∈
      (applyOps db1 ops).accumulated_sats_logs :=
    applyOps_logs_mono ops db1 _ hshape.2.2
  have hfind2 : (applyOps db1 ops).findUser req2.discord_id = some user := by
    simp only [SatsDb.findUser] at hu ⊢
    rw [husers, hd1]
    exact hu
  have hdup2 : (applyOps db1 ops).hasAddLogFor user.id req2.session_id =
      true := by
    rw [hd2]
    simp only [SatsDb.hasAddLogFor, Option.isSome_some, Bool.true_and]
    rw [List.any_eq_true]
    refine ⟨_, hlogb, ?_⟩
    simp [hsid]
  have hnle2 : ¬ req2.amount ≤ 0 := not_le.mpr hp2
  have herr : add_accumulated_sats (applyOps db1 ops) now2 user.id
      req2.amount req2.session_id req2.note = .error .uniqueViolation := by
    cases hb2 : (applyOps db1 ops).balanceRow user.id with
    | none => simp [add_accumulated_sats, hnle2, hb2, hdup2]
    | some row2 => simp [add_accumulated_sats, hnle2, hb2, hdup2]
  refine ⟨?_, ?_, ?_⟩ <;> simp [postAddSats, hfind2, herr]

/-- The concrete database of the C3 witness. -/
def c3Db : SatsDb := ⟨[⟨1, "alice"⟩], [], []⟩

/-- The C3 witness first add request, for session 77. -/
def c3Req : AddReq := ⟨"alice", 5, some 77, none⟩

/-- The C3 witness duplicate add request, same user and session. -/
def c3Req2 : AddReq := ⟨"alice", 4, some 77, none⟩

/-- The ledger operations run between the two C3 witness requests. -/
def c3Ops : List LedgerOp := [.add 3 1 2 none none]

/-- Witness for C3 at a concrete database: the first add succeeds, the
duplicate — after an unrelated add in between — is answered with 409 and
changes nothing. -/
theorem c3_witness :
    (postAddSats c3Db 1 c3Req).1.status = 201 ∧
    (postAddSats (applyOps (postAddSats c3Db 1 c3Req).2 c3Ops) 4
        c3Req2).1.status = 409 ∧
    (postAddSats (applyOps (postAddSats c3Db 1 c3Req).2 c3Ops) 4
        c3Req2).1.code = some "DUPLICATE_SESSION" ∧
    (postAddSats (applyOps (postAddSats c3Db 1 c3Req).2 c3Ops) 4
        c3Req2).2 = applyOps (postAddSats c3Db 1 c3Req).2 c3Ops := by
  have h := c3_session_dedup c3Db 1 c3Req ⟨1, "alice"⟩ 77 (by decide)
    (by decide) (by decide) (by decide)
  exact ⟨h.1, h.2 c3Ops c3Req2 4 (by decide) (by decide) (by decide)⟩

/-- Splitting a separator-free list yields that single segment. -/
theorem splitOnCharFn_of_not_mem (sep : Char) (a : List Char)
    (ha : sep ∉ a) : splitOnCharFn sep a = [a] := by
  induction a with
  | nil => rfl
  | cons c a ih =>
      have hc : ¬ c = sep := fun h => ha (by rw [← h]; exact List.mem_cons_self c a)
      have ha' : sep ∉ a := fun h => ha (List.mem_cons_of_mem c h)
      simp [splitOnCharFn, hc, ih ha']

/-- Splitting peels off one separator-free segment before a separator. -/
theorem splitOnCharFn_append_sep (sep : Char) (a rest : List Char)
    (ha : sep ∉ a) :
    splitOnCharFn sep (a ++ sep :: rest) = a :: splitOnCharFn sep rest := by
  induction a with
  | nil => simp [splitOnCharFn]
  | cons c a ih =>
      have hc : ¬ c = sep := fun h => ha (by rw [← h]; exact List.mem_cons_self c a)
      have ha' : sep ∉ a := fun h => ha (List.mem_cons_of_mem c h)
      simp [splitOnCharFn, hc, ih ha']

/-- `a:b:c:d` splits into exactly its four colon-free parts. -/
theorem strSplit_quad (a b c d : String) (ha : ':' ∉ a.data)
    (hb : ':' ∉ b.data) (hc : ':' ∉ c.data) (hd : ':' ∉ d.data) :
    strSplit (a ++ ":" ++ b ++ ":" ++ c ++ ":" ++ d) ':' = [a, b, c, d] := by
  have hcolon : ((":" : String)).data = [':'] := rfl
  have hdata : (a ++ ":" ++ b ++ ":" ++ c ++ ":" ++ d).data =
      a.data ++ ':' :: (b.data ++ ':' :: (c.data ++ ':' :: d.data)) := by
    simp [String.data_append, hcolon]
  have hback : ∀ s : String, s.data.asString = s := fun s => rfl
  unfold strSplit
  rw [hdata, splitOnCharFn_append_sep _ _ _ ha,
    splitOnCharFn_append_sep _ _ _ hb, splitOnCharFn_append_sep _ _ _ hc,
    splitOnCharFn_of_not_mem _ _ hd]
  simp [hback]

/-- `Nat.digitChar` of a digit is a decimal digit character with the value
`parseLeading` reads back. -/
theorem digitChar_digit {n : Nat} (h : n < 10) :
    isDigitChar (Nat.digitChar n) = true ∧ (Nat.digitChar n).toNat - 48 = n := by
  interval_cases n <;> exact ⟨by decide, by decide⟩

/-- Every character `natCharsAux` produces is a decimal digit. -/
theorem natCharsAux_digits (fuel : Nat) :
    ∀ n, n < fuel → ∀ c ∈ natCharsAux fuel n, isDigitChar c = true := by
  induction fuel with
  | zero => intro n h; omega
  | succ fuel ih =>
      intro n h c hcm
      by_cases h10 : n < 10
      · simp [natCharsAux, h10] at hcm
        subst hcm
        exact (digitChar_digit h10).1
      · simp [natCharsAux, h10] at hcm
        rcases hcm with hcm | hcm
        · exact ih (n / 10) (by omega) c hcm
        · subst hcm
          exact (digitChar_digit (Nat.mod_lt n (by omega))).1

/-- `natCharsAux` with enough fuel is never empty. -/
theorem natCharsAux_ne_nil (fuel n : Nat) (h : n < fuel) :
    natCharsAux fuel n ≠ [] := by
  cases fuel with
  | zero => omega
  | succ fuel => by_cases h10 : n < 10 <;> simp [natCharsAux, h10]

/-- `parseLeading` walks through an all-digit prefix. -/
theorem parseLeading_append_digits (xs ys : List Char) (acc : Nat)
    (hx : ∀ c ∈ xs, isDigitChar c = true) :
    parseLeading (xs ++ ys) acc = parseLeading ys (parseLeading xs acc) := by
  induction xs generalizing acc with
  | nil => rfl
  | cons c xs ih =>
      have hc := hx c (List.mem_cons_self c xs)
      simp only [List.cons_append, parseLeading, hc, if_true]
      exact ih _ (fun d hd => hx d (List.mem_cons_of_mem c hd))

/-- `parseLeading` reads the decimal digits of `n` back as `n`. -/
theorem parseLeading_natCharsAux (fuel : Nat) :
    ∀ n acc, n < fuel →
      parseLeading (natCharsAux fuel n) acc =
        acc * 10 ^ (natCharsAux fuel n).length + n := by
  induction fuel with
  | zero => intro n acc h; omega
  | succ fuel ih =>
      intro n acc h
      by_cases h10 : n < 10
      · simp [natCharsAux, h10, parseLeading, (digitChar_digit h10).1,
          (digitChar_digit h10).2]
      · have hfa : n / 10 < fuel := by omega
        have h10' : n % 10 < 10 := Nat.mod_lt n (by omega)
        have hdig : ∀ c ∈ natCharsAux fuel (n / 10), isDigitChar c = true :=
          natCharsAux_digits fuel (n / 10) hfa
        simp only [natCharsAux, if_neg h10]
        rw [parseLeading_append_digits _ _ _ hdig, ih (n / 10) acc hfa]
        simp only [parseLeading, (digitChar_digit h10').1, if_true,
          (digitChar_digit h10').2, List.length_append,
          List.length_singleton, pow_succ]
        rw [← mul_assoc]
        generalize acc * (10 : Nat) ^ (natCharsAux fuel (n / 10)).length = A
        omega

/-- `parseInt` inverts decimal printing. -/
theorem jsParseInt_natStr (n : Nat) : jsParseInt (natStr n) = some n := by
  have hlt : n < n + 1 := Nat.lt_succ_self n
  have hne := natCharsAux_ne_nil (n + 1) n hlt
  have hdig := natCharsAux_digits (n + 1) n hlt
  have hval := parseLeading_natCharsAux (n + 1) n 0 hlt
  cases hd : natCharsAux (n + 1) n with
  | nil => exact absurd hd hne
  | cons c cs =>
      have hc : isDigitChar c = true :=
        hdig c (hd ▸ List.mem_cons_self c cs)
      rw [hd] at hval
      simp only [jsParseInt, natStr, hd]
      have hback : (c :: cs).asString.data = c :: cs := rfl
      rw [hback]
      simpa [hc] using hval

/-- Decimal printing produces no colon. -/
theorem natStr_no_colon (n : Nat) : ':' ∉ (natStr n).data := by
  intro h
  have hdig := natCharsAux_digits (n + 1) n (Nat.lt_succ_self n) ':'
    (by simpa [natStr] using h)
  exact absurd hdig (by decide)

/-- C5: with the same secret key and HMAC (whose hex output contains no
colon), a freshly generated QR payload for a colon-free meetup id verifies
back to that meetup id while at most 3600 seconds old; verification fails
with an error for an older payload, for a payload whose checksum differs
from the first 8 hex digits of `hmac(meetupId:timestamp, secret)`, and for
any string that does not split into exactly four colon-separated parts
starting with `"meetup"`. -/
theorem c5_qr_protocol (hmac : String → String → String) (secretKey : String)
    (hhex : ∀ m k, ∀ c ∈ (hmac m k).data, c ≠ ':') :
    (∀ meetupId tGen now, ':' ∉ meetupId.data → now - tGen ≤ 3600 →
      verifyQRData hmac (generateQRData hmac meetupId tGen secretKey).1
          secretKey now = ⟨true, some meetupId, none⟩) ∧
    (∀ meetupId tGen now, ':' ∉ meetupId.data → now - tGen > 3600 →
      verifyQRData hmac (generateQRData hmac meetupId tGen secretKey).1
          secretKey now = ⟨false, none, some "QR code expired"⟩) ∧
    (∀ meetupId ts cs now, ':' ∉ meetupId.data → ':' ∉ cs.data →
      now - ts ≤ 3600 →
      cs ≠ ((hmac (meetupId ++ ":" ++ natStr ts) secretKey).data.take
        8).asString →
      verifyQRData hmac
          ("meetup" ++ ":" ++ meetupId ++ ":" ++ natStr ts ++ ":" ++ cs)
          secretKey now = ⟨false, none, some "Invalid QR checksum"⟩) ∧
    (∀ qrData now, (strSplit qrData ':').length ≠ 4 ∨
        (strSplit qrData ':').head? ≠ some "meetup" →
      verifyQRData hmac qrData secretKey now =
        ⟨false, none, some "Invalid QR format"⟩) := by
  have hmeetup : ':' ∉ ("meetup" : String).data := by decide
  refine ⟨?_, ?_, ?_, ?_⟩
  · intro id tGen now hid hfresh
    have hcsno : ':' ∉
        (((hmac (id ++ ":" ++ natStr tGen) secretKey).data.take
          8).asString).data :=
      fun h => (hhex _ _ ':' (List.mem_of_mem_take h)) rfl
    have hgen : (generateQRData hmac id tGen secretKey).1 =
        "meetup" ++ ":" ++ id ++ ":" ++ natStr tGen ++ ":" ++
          ((hmac (id ++ ":" ++ natStr tGen) secretKey).data.take
            8).asString := rfl
    have hsplit := strSplit_quad "meetup" id (natStr tGen) _ hmeetup hid
      (natStr_no_colon tGen) hcsno
    rw [hgen]
    unfold verifyQRData
    rw [hsplit]
    simp [jsParseInt_natStr, Nat.not_lt.mpr hfresh]
  · intro id tGen now hid hold
    have hcsno : ':' ∉
        (((hmac (id ++ ":" ++ natStr tGen) secretKey).data.take
          8).asString).data :=
      fun h => (hhex _ _ ':' (List.mem_of_mem_take h)) rfl
    have hgen : (generateQRData hmac id tGen secretKey).1 =
        "meetup" ++ ":" ++ id ++ ":" ++ natStr tGen ++ ":" ++
          ((hmac (id ++ ":" ++ natStr tGen) secretKey).data.take
            8).asString := rfl
    have hsplit := strSplit_quad "meetup" id (natStr tGen) _ hmeetup hid
      (natStr_no_colon tGen) hcsno
    rw [hgen]
    unfold verifyQRData
    rw [hsplit]
    simp [jsParseInt_natStr, hold]
  · intro id ts cs now hid hcs hfresh hne
    have hsplit := strSplit_quad "meetup" id (natStr ts) cs hmeetup hid
      (natStr_no_colon ts) hcs
    unfold verifyQRData
    rw [hsplit]
    simp [jsParseInt_natStr, Nat.not_lt.mpr hfresh, Ne.symm hne]
  · intro qr now hbad
    unfold verifyQRData
    rcases hl : strSplit qr ':' with - | ⟨p0, - | ⟨p1, - | ⟨p2, - |
      ⟨p3, - | ⟨p4, rest⟩⟩⟩⟩⟩
    · simp
    · simp
    · simp
    · simp
    · rw [hl] at hbad
      simp at hbad
      simp [hbad]
    · simp

/-- Witness for C5: a concrete generate/verify round trip with a constant
hex digest one second after generation. -/
theorem c5_witness :
    verifyQRData (fun _ _ => "00c0ffee00c0ffee")
      (generateQRData (fun _ _ => "00c0ffee00c0ffee") "m" 5 "key").1
      "key" 6 = ⟨true, some "m", none⟩ :=
  (c5_qr_protocol (fun _ _ => "00c0ffee00c0ffee") "key"
      (fun m k => by
        show ∀ c ∈ ("00c0ffee00c0ffee" : String).data, c ≠ ':'
        decide)).1 "m" 5 6 (by decide) (by decide)

/-- Appending a session to the log splits the per-user filter. -/
theorem userSessions_append (d : String) (L : List StudySession)
    (s : StudySession) :
    userSessions d (L ++ [s]) =
      userSessions d L ++ (if sessionBelongsTo d s then [s] else []) := by
  by_cases hb : sessionBelongsTo d s <;>
    simp [userSessions, List.filter_append, hb]

/-- Appending a session adds its seconds to the owner's total. -/
theorem specTotalSeconds_append (d : String) (L : List StudySession)
    (s : StudySession) :
    specTotalSeconds d (L ++ [s]) = specTotalSeconds d L +
      (if sessionBelongsTo d s then sessionSeconds s else 0) := by
  rw [specTotalSeconds, userSessions_append]
  by_cases hb : sessionBelongsTo d s <;> simp [hb, specTotalSeconds]

/-- Appending a session increments the owner's count. -/
theorem specSessionCount_append (d : String) (L : List StudySession)
    (s : StudySession) :
    specSessionCount d (L ++ [s]) = specSessionCount d L +
      (if sessionBelongsTo d s then 1 else 0) := by
  rw [specSessionCount, userSessions_append]
  by_cases hb : sessionBelongsTo d s <;> simp [hb, specSessionCount]

/-- Folding `Nat.max` from an arbitrary base. -/
theorem foldrMax_base (xs : List Nat) (b : Nat) :
    xs.foldr Nat.max b = Nat.max (xs.foldr Nat.max 0) b := by
  induction xs with
  | nil => simp
  | cons x xs ih => simp [ih, Nat.max_assoc]

/-- Appending a session updates the owner's latest activity to the
maximum. -/
theorem specLastActivity_append (d : String) (L : List StudySession)
    (s : StudySession) :
    specLastActivity d (L ++ [s]) =
      if sessionBelongsTo d s then
        Nat.max (specLastActivity d L) s.created_at
      else specLastActivity d L := by
  by_cases hb : sessionBelongsTo d s
  · rw [if_pos hb]
    simp only [specLastActivity, userSessions_append, if_pos hb,
      List.map_append, List.foldr_append, List.map_cons, List.map_nil,
      List.foldr_cons, List.foldr_nil, Nat.max_zero]
    rw [foldrMax_base]
  · rw [if_neg hb]
    simp only [specLastActivity, userSessions_append, if_neg hb,
      List.append_nil]

/-- The JavaScript tie-break `if (created > last) created else last` is the
maximum. -/
theorem if_gt_eq_max (a b : Nat) : (if a > b then a else b) = Nat.max b a := by
  unfold Nat.max
  split_ifs <;> omega

/-- `stats` is exactly the spec-side aggregation of the session list `L`:
distinct users, each entry carrying the spec totals, and an entry for
exactly the users owning a session. -/
def statsRepresent (L : List StudySession) (stats : List UserStat) : Prop :=
  (stats.map (fun st => st.discord_id)).Nodup ∧
  (∀ st ∈ stats,
    st.total_seconds = specTotalSeconds st.discord_id L ∧
    st.session_count = specSessionCount st.discord_id L ∧
    st.last_activity_at = specLastActivity st.discord_id L) ∧
  (∀ d, (∃ st ∈ stats, st.discord_id = d) ↔
    ∃ s ∈ L, sessionBelongsTo d s = true)

/-- One `forEach` step of the aggregation preserves `statsRepresent`. -/
theorem statsRepresent_step (L : List StudySession) (stats : List UserStat)
    (s : StudySession) (h : statsRepresent L stats) :
    statsRepresent (L ++ [s]) (updateStats stats s) := by
  obtain ⟨hnd, helem, hiff⟩ := h
  cases hu : s.users with
  | none =>
      have hbf : ∀ d, sessionBelongsTo d s = false := by
        intro d
        simp [sessionBelongsTo, hu]
      have hup : updateStats stats s = stats := by simp [updateStats, hu]
      rw [hup]
      refine ⟨hnd, ?_, ?_⟩
      · intro st hst
        obtain ⟨h1, h2, h3⟩ := helem st hst
        refine ⟨?_, ?_, ?_⟩
        · rw [specTotalSeconds_append]
          simp [hbf, h1]
        · rw [specSessionCount_append]
          simp [hbf, h2]
        · rw [specLastActivity_append]
          simp [hbf, h3]
      · intro d
        rw [hiff d]
        constructor
        · rintro ⟨s', hs', hb⟩
          exact ⟨s', List.mem_append_left _ hs', hb⟩
        · rintro ⟨s', hs', hb⟩
          rcases List.mem_append.mp hs' with h' | h'
          · exact ⟨s', h', hb⟩
          · rw [List.mem_singleton] at h'
            subst h'
            rw [hbf d] at hb
            cases hb
  | some u =>
      by_cases hA : stats.any (fun st => st.discord_id = u.discord_id) = true
      · have hup : updateStats stats s = stats.map (fun st =>
            if st.discord_id = u.discord_id then
              { st with
                total_seconds := st.total_seconds + sessionSeconds s,
                session_count := st.session_count + 1,
                last_activity_at :=
                  if s.created_at > st.last_activity_at then s.created_at
                  else st.last_activity_at }
            else st) := by
          simp [updateStats, hu, hA]
        simp only [List.any_eq_true, decide_eq_true_eq] at hA
        have hids : ∀ st : UserStat,
            (if st.discord_id = u.discord_id then
              { st with
                total_seconds := st.total_seconds + sessionSeconds s,
                session_count := st.session_count + 1,
                last_activity_at :=
                  if s.created_at > st.last_activity_at then s.created_at
                  else st.last_activity_at }
            else st).discord_id = st.discord_id := by
          intro st
          by_cases hst : st.discord_id = u.discord_id <;> simp [hst]
        have hmapids : (updateStats stats s).map (fun st => st.discord_id) =
            stats.map (fun st => st.discord_id) := by
          rw [hup, List.map_map]
          exact List.map_congr_left (fun st _ => hids st)
        refine ⟨?_, ?_, ?_⟩
        · rw [hmapids]
          exact hnd
        · intro st' hst'
          rw [hup] at hst'
          obtain ⟨st₀, hst₀, rfl⟩ := List.mem_map.mp hst'
          obtain ⟨h1, h2, h3⟩ := helem st₀ hst₀
          by_cases hthis : st₀.discord_id = u.discord_id
          · simp only [if_pos hthis]
            have hb : sessionBelongsTo st₀.discord_id s = true := by
              simp [sessionBelongsTo, hu, hthis]
            refine ⟨?_, ?_, ?_⟩
            · rw [specTotalSeconds_append]
              simp [hb, h1]
            · rw [specSessionCount_append]
              simp [hb, h2]
            · rw [specLastActivity_append]
              simp [hb, if_gt_eq_max, h3]
          · have hne : ¬ u.discord_id = st₀.discord_id :=
              fun hh => hthis hh.symm
            simp only [if_neg hthis]
            refine ⟨?_, ?_, ?_⟩
            · rw [specTotalSeconds_append]
              simp [sessionBelongsTo, hu, hne, h1]
            · rw [specSessionCount_append]
              simp [sessionBelongsTo, hu, hne, h2]
            · rw [specLastActivity_append]
              simp [sessionBelongsTo, hu, hne, h3]
        · intro d
          have hlhs : (∃ st ∈ updateStats stats s, st.discord_id = d) ↔
              ∃ st ∈ stats, st.discord_id = d := by
            rw [hup]
            constructor
            · rintro ⟨st', hst', hd'⟩
              obtain ⟨st₀, hst₀, rfl⟩ := List.mem_map.mp hst'
              exact ⟨st₀, hst₀, (hids st₀) ▸ hd'⟩
            · rintro ⟨st₀, hst₀, hd₀⟩
              exact ⟨_, List.mem_map_of_mem _ hst₀, (hids st₀).trans hd₀⟩
          rw [hlhs, hiff d]
          constructor
          · rintro ⟨s', hs', hb⟩
            exact ⟨s', List.mem_append_left _ hs', hb⟩
          · rintro ⟨s', hs', hb⟩
            rcases List.mem_append.mp hs' with h' | h'
            · exact ⟨s', h', hb⟩
            · rw [List.mem_singleton] at h'
              rw [h'] at hb
              by_cases hd2 : u.discord_id = d
              · obtain ⟨st₀, hst₀, hd₀⟩ := hA
                exact (hiff d).mp ⟨st₀, hst₀, hd₀.trans hd2⟩
              · rw [show sessionBelongsTo d s = false by
                  simp [sessionBelongsTo, hu, hd2]] at hb
                cases hb
      · have hup : updateStats stats s = stats ++
            [⟨u.discord_id, u.discord_username, u.discord_avatar,
              sessionSeconds s, 1, s.created_at⟩] := by
          simp only [updateStats, hu]
          rw [if_neg hA]
        have hA' : ∀ st ∈ stats, ¬ st.discord_id = u.discord_id := by
          simpa [List.any_eq_true] using hA
        have hnoL : userSessions u.discord_id L = [] := by
          rw [userSessions, List.filter_eq_nil_iff]
          intro s' hs' hb
          obtain ⟨st₀, hst₀, hd₀⟩ := (hiff u.discord_id).mpr ⟨s', hs', hb⟩
          exact hA' st₀ hst₀ hd₀
        rw [hup]
        refine ⟨?_, ?_, ?_⟩
        · rw [List.map_append]
          rw [List.nodup_append]
          refine ⟨hnd, by simp, ?_⟩
          intro x hx hx'
          simp at hx'
          obtain ⟨st₀, hst₀, hd₀⟩ := List.mem_map.mp hx
          exact hA' st₀ hst₀ (by rw [hd₀, hx'])
        · intro st' hst'
          rcases List.mem_append.mp hst' with hst' | hst'
          · obtain ⟨h1, h2, h3⟩ := helem st' hst'
            have hne : ¬ u.discord_id = st'.discord_id :=
              fun hh => hA' st' hst' hh.symm
            refine ⟨?_, ?_, ?_⟩
            · rw [specTotalSeconds_append]
              simp [sessionBelongsTo, hu, hne, h1]
            · rw [specSessionCount_append]
              simp [sessionBelongsTo, hu, hne, h2]
            · rw [specLastActivity_append]
              simp [sessionBelongsTo, hu, hne, h3]
          · simp only [List.mem_singleton] at hst'
            subst hst'
            refine ⟨?_, ?_, ?_⟩
            · rw [specTotalSeconds_append]
              simp [sessionBelongsTo, hu, specTotalSeconds, hnoL]
            · rw [specSessionCount_append]
              simp [sessionBelongsTo, hu, specSessionCount, hnoL]
            · rw [specLastActivity_append]
              simp [sessionBelongsTo, hu, specLastActivity, hnoL]
        · intro d
          by_cases hd : u.discord_id = d
          · constructor
            · intro _
              exact ⟨s, List.mem_append_right _ (List.mem_singleton_self s),
                by simp [sessionBelongsTo, hu, hd]⟩
            · intro _
              exact ⟨⟨u.discord_id, u.discord_username, u.discord_avatar,
                sessionSeconds s, 1, s.created_at⟩,
                List.mem_append_right _ (List.mem_singleton_self _), hd⟩
          · have hstep : (∃ st ∈ stats ++
                [⟨u.discord_id, u.discord_username, u.discord_avatar,
                  sessionSeconds s, 1, s.created_at⟩], st.discord_id = d) ↔
                ∃ st ∈ stats, st.discord_id = d := by
              constructor
              · rintro ⟨st, hst, hd₀⟩
                rcases List.mem_append.mp hst with h' | h'
                · exact ⟨st, h', hd₀⟩
                · rw [List.mem_singleton] at h'
                  subst h'
                  exact absurd hd₀ hd
              · rintro ⟨st, hst, hd₀⟩
                exact ⟨st, List.mem_append_left _ hst, hd₀⟩
            rw [hstep, hiff d]
            constructor
            · rintro ⟨s', hs', hb⟩
              exact ⟨s', List.mem_append_left _ hs', hb⟩
            · rintro ⟨s', hs', hb⟩
              rcases List.mem_append.mp hs' with h' | h'
              · exact ⟨s', h', hb⟩
              · rw [List.mem_singleton] at h'
                rw [h'] at hb
                rw [show sessionBelongsTo d s = false by
                  simp [sessionBelongsTo, hu, hd]] at hb
                cases hb

/-- The imperative `forEach` aggregation computes exactly the spec-side
per-user aggregation. -/
theorem aggregateTime_represents (sessions : List StudySession) :
    statsRepresent sessions (aggregateTime sessions) := by
  induction sessions using List.reverseRecOn with
  | nil =>
      refine ⟨by simp [aggregateTime], by simp [aggregateTime], ?_⟩
      intro d
      simp [aggregateTime]
  | append_singleton L s ih =>
      have hfold : aggregateTime (L ++ [s]) =
          updateStats (aggregateTime L) s := by
        simp [aggregateTime, List.foldl_append]
      rw [hfold]
      exact statsRepresent_step L (aggregateTime L) s ih

/-- C7: the `time` ranking equals the per-user aggregation of the sessions
matching the category filter — distinct users, exactly those owning a
matching session with a joined user record, each with the spec total
seconds (minutes times 60 as fallback, 0 when both durations are absent),
session count and maximal `created_at` — sorted by descending
`total_seconds`, truncated to `limit`, with rank fields `1..n` in list
order. -/
theorem c7_rankings_by_category_time (sessions : List StudySession)
    (category : String) (limit : Nat) :
    ((aggregateTime (timeFilter sessions category)).map
        (fun st => st.discord_id)).Nodup ∧
    (∀ d, (∃ st ∈ aggregateTime (timeFilter sessions category),
        st.discord_id = d) ↔
      ∃ s ∈ timeFilter sessions category, sessionBelongsTo d s = true) ∧
    (byCategoryTime sessions category limit).length =
      min limit (aggregateTime (timeFilter sessions category)).length ∧
    (∀ i (hi : i < (byCategoryTime sessions category limit).length),
      ((byCategoryTime sessions category limit).get ⟨i, hi⟩).rank = i + 1) ∧
    (byCategoryTime sessions category limit).Pairwise
      (fun a b => b.total_seconds ≤ a.total_seconds) ∧
    (∀ e ∈ byCategoryTime sessions category limit,
      e.total_seconds =
        specTotalSeconds e.discord_id (timeFilter sessions category) ∧
      e.session_count =
        specSessionCount e.discord_id (timeFilter sessions category) ∧
      e.last_activity_at =
        specLastActivity e.discord_id (timeFilter sessions category)) := by
  obtain ⟨hnd, helem, hiff⟩ :=
    aggregateTime_represents (timeFilter sessions category)
  have hperm := List.perm_insertionSort statGE
    (aggregateTime (timeFilter sessions category))
  refine ⟨hnd, hiff, ?_, ?_, ?_, ?_⟩
  · simp [byCategoryTime, List.enum_length, List.length_take,
      hperm.length_eq]
  · intro i hi
    rw [List.get_eq_getElem]
    simp [byCategoryTime, List.getElem_map, List.getElem_enum]
  · have hs := List.Pairwise.sublist
      (List.take_sublist limit (List.insertionSort statGE
        (aggregateTime (timeFilter sessions category))))
      (List.sorted_insertionSort statGE
        (aggregateTime (timeFilter sessions category)))
    rw [List.pairwise_iff_getElem] at hs
    rw [List.pairwise_iff_getElem]
    intro i j hi hj hij
    have hi' : i < ((List.insertionSort statGE
        (aggregateTime (timeFilter sessions category))).take
          limit).length := by
      simpa [byCategoryTime] using hi
    have hj' : j < ((List.insertionSort statGE
        (aggregateTime (timeFilter sessions category))).take
          limit).length := by
      simpa [byCategoryTime] using hj
    have hrel := hs i j hi' hj' hij
    simpa [byCategoryTime, List.getElem_map, List.getElem_enum,
      statGE] using hrel
  · intro e he
    simp only [byCategoryTime, List.mem_map] at he
    obtain ⟨⟨i, st⟩, hmem, rfl⟩ := he
    have hst : st ∈ List.insertionSort statGE
        (aggregateTime (timeFilter sessions category)) :=
      List.mem_of_mem_take (List.snd_mem_of_mem_enum hmem)
    exact helem st (hperm.mem_iff.mp hst)

/-- The concrete sessions of the C7 witness: two for `alice`, one for
`bob`, one with no joined user. -/
def c7Sessions : List StudySession :=
  [⟨some 600, none, "pow-writing", 10, some ⟨"alice", "Alice", none⟩⟩,
   ⟨none, some 5, "pow-writing", 12, some ⟨"bob", "Bob", none⟩⟩,
   ⟨some 100, none, "pow-writing", 11, some ⟨"alice", "Alice", none⟩⟩,
   ⟨some 50, none, "pow-writing", 13, none⟩]

/-- Witness for C7 at a concrete session list: the first returned entry
(`alice`, rank 1, 700 seconds over 2 sessions, last active at 11) carries
exactly the spec aggregation values. -/
theorem c7_witness :
    (⟨1, "alice", "Alice", none, 700, 2, 11⟩ : RankingEntry).total_seconds =
      specTotalSeconds "alice" (timeFilter c7Sessions "all") ∧
    (⟨1, "alice", "Alice", none, 700, 2, 11⟩ : RankingEntry).session_count =
      specSessionCount "alice" (timeFilter c7Sessions "all") ∧
    (⟨1, "alice", "Alice", none, 700, 2,
        11⟩ : RankingEntry).last_activity_at =
      specLastActivity "alice" (timeFilter c7Sessions "all") :=
  (c7_rankings_by_category_time c7Sessions "all" 10).2.2.2.2.2
    ⟨1, "alice", "Alice", none, 700, 2, 11⟩ (by decide)
